import Mathlib

/-!
Verification of the retrieval-confidence-generation pipeline of the
AI-Native-Book backend (a RAG chatbot over a robotics textbook).

The Python source is shallowly embedded: text is modelled as `List Char`
(so Python `len`, slicing and `str.find` become list operations),
similarity scores and thresholds as rationals, and the two external
collaborators (the vector store and the LLM chat-completion API) as
inputs: retrieval results are passed to the request handlers as a list,
and the LLM is an abstract function from (system prompt, user message)
to completion text.  Python's `while` loop in `chunk_text` is embedded
with an explicit fuel argument equal to the number of words, which is
shown sufficient whenever `overlap_tokens < max_tokens`.
-/

set_option maxRecDepth 4096

namespace AIBook

/-- Text is a list of characters (Python `str`). -/
abbrev Str := List Char

/-- Whitespace characters recognised by Python `str.split()` with no
arguments: space, tab, newline, carriage return, form feed, vertical tab. -/
def isPySpace (c : Char) : Bool :=
  c == ' ' || c == '\t' || c == '\n' || c == '\x0d' || c == '\x0c' || c == '\x0b'

/-- Worker for `pySplit`: `acc` holds the current word reversed. -/
def pySplitAux : Str → Str → List Str
  | acc, [] => if acc = [] then [] else [acc.reverse]
  | acc, c :: cs =>
    if isPySpace c then
      if acc = [] then pySplitAux [] cs else acc.reverse :: pySplitAux [] cs
    else pySplitAux (c :: acc) cs

/-- Python `text.split()`: split on runs of whitespace, discarding empty
pieces (no leading/trailing empty words). -/
def pySplit (s : Str) : List Str := pySplitAux [] s

/-- Python `" ".join(ws)`: words joined by single spaces. -/
def joinSpace : List Str → Str
  | [] => []
  | [w] => w
  | w :: ws => w ++ ' ' :: joinSpace ws

/-- Search positions `i, i+1, ...` (at most `n` of them) for an occurrence
of `sub` in `s`; returns the first match position. -/
def findFromAux (s sub : Str) (i : Nat) : Nat → Option Nat
  | 0 => none
  | n + 1 =>
    if sub.isPrefixOf (s.drop i) then some i else findFromAux s sub (i + 1) n

/-- Python `s.find(sub, start)`: the smallest index `i ≥ start` (after
Python's slice-style normalisation of a negative `start`) at which `sub`
occurs in `s`, or `-1` if there is none. -/
def pyFind (s sub : Str) (start : Int) : Int :=
  let st : Nat := if start < 0 then ((s.length : Int) + start).toNat else start.toNat
  match findFromAux s sub st (s.length + 1 - st) with
  | some i => (i : Int)
  | none => -1

/-- One chunk produced by `chunk_text` in `scripts/ingest.py`:
`{"text": ..., "start_char": ..., "end_char": ...}`.  Character positions
are integers because Python's `find` can return `-1`. -/
structure Chunk where
  text : Str
  start_char : Int
  end_char : Int
deriving DecidableEq

/-- The `while start_idx < len(words)` loop of `chunk_text`, with an
explicit fuel argument (first `Nat`).  Arguments after the fuel are
`start_idx` and `char_pos`.  `char_pos` is an `Int` because Python
assigns it from `end_char`, which can be negative after a failed find.
`end_idx - ov` uses truncating `Nat` subtraction; in the reachable cases
with `ov < maxT` the Python value `end_idx - overlap_tokens` is
nonnegative (there `end_idx = start_idx + maxT > ov`), so the two agree. -/
def chunkLoop (text : Str) (words : List Str) (maxT ov : Nat) :
    Nat → Nat → Int → List Chunk
  | 0, _, _ => []
  | fuel + 1, start_idx, char_pos =>
    if start_idx < words.length then
      let end_idx := min (start_idx + maxT) words.length
      let chunk_words := (words.drop start_idx).take (end_idx - start_idx)
      let ctext := joinSpace chunk_words
      let start_char : Int :=
        match chunk_words with
        | [] => char_pos
        | w :: _ => pyFind text w char_pos
      let end_char : Int := start_char + (ctext.length : Int)
      let c : Chunk := ⟨ctext, start_char, end_char⟩
      if words.length ≤ end_idx then [c]
      else c :: chunkLoop text words maxT ov fuel (end_idx - ov) end_char
    else []

/-- `chunk_text(text, max_tokens, overlap_tokens)` from `scripts/ingest.py`.
The fuel `(pySplit text).length` is sufficient whenever `ov < maxT`
(each non-final iteration advances `start_idx` by `maxT - ov ≥ 1`);
this sufficiency is proved below (`chunkLoop_fuel_irrelevant`). -/
def chunk_text (text : Str) (maxT ov : Nat) : List Chunk :=
  chunkLoop text (pySplit text) maxT ov (pySplit text).length 0 0

/-! ### Retrieval service (`src/services/retrieval.py`) -/

/-- `ConfidenceLevel` from `src/models/schemas.py` (string enum
`high`/`medium`/`low`). -/
inductive Confidence where
  | high
  | medium
  | low
deriving DecidableEq

/-- The two confidence thresholds read from `Settings` in `src/config.py`
(defaults `CONFIDENCE_HIGH_THRESHOLD=0.7`, `CONFIDENCE_LOW_THRESHOLD=0.4`).
Python floats are modelled as rationals. -/
structure SettingsC where
  confidence_high_threshold : ℚ
  confidence_low_threshold : ℚ
deriving DecidableEq

/-- The default threshold configuration of `src/config.py`. -/
def defaultSettings : SettingsC := ⟨7/10, 2/5⟩

/-- `get_confidence_level` from `src/services/retrieval.py`. -/
def get_confidence_level (st : SettingsC) (top_score : ℚ) : Confidence :=
  if top_score ≥ st.confidence_high_threshold then .high
  else if top_score ≥ st.confidence_low_threshold then .medium
  else .low

/-- `RetrievalResult` from `src/services/retrieval.py`. -/
structure RetrievalResult where
  chunk_text : Str
  chapter_slug : Str
  section_id : Option Str
  chunk_index : Nat
  score : ℚ
  start_char : Int
  end_char : Int

/-- The `CHAPTER_TITLES` dict of `src/services/retrieval.py`. -/
def CHAPTER_TITLES (slug : Str) : Option Str :=
  if slug = "intro".toList then some "Introduction to Physical AI".toList
  else if slug = "humanoid-basics".toList then some "Basics of Humanoid Robotics".toList
  else if slug = "ros2-fundamentals".toList then some "ROS 2 Fundamentals".toList
  else if slug = "digital-twin".toList then some "Digital Twin Simulation".toList
  else if slug = "vla-systems".toList then some "Vision-Language-Action Systems".toList
  else if slug = "capstone".toList then some "Capstone Project".toList
  else none

/-- Python `s.replace("-", " ")` for the single-character arguments used
in this codebase: character-wise substitution. -/
def replaceDashSpace (s : Str) : Str :=
  s.map fun c => if c = '-' then ' ' else c

/-- Worker for `pyTitle`; the `Bool` records whether the previous
character was alphabetic (cased). -/
def pyTitleAux : Bool → Str → Str
  | _, [] => []
  | prevAlpha, c :: cs =>
    (if c.isAlpha then (if prevAlpha then c.toLower else c.toUpper) else c) ::
      pyTitleAux c.isAlpha cs

/-- Python `s.title()`: uppercase each letter that follows a non-letter,
lowercase the other letters.  (Python's notion of "cased" is approximated
by `Char.isAlpha`; the slugs this is applied to are ASCII.) -/
def pyTitle (s : Str) : Str := pyTitleAux false s

/-- `get_chapter_title` from `src/services/retrieval.py`: dict lookup with
fallback `slug.replace("-", " ").title()`. -/
def get_chapter_title (slug : Str) : Str :=
  match CHAPTER_TITLES slug with
  | some t => t
  | none => pyTitle (replaceDashSpace slug)

/-! ### Generation service (`src/services/generation.py`) -/

/-- The fixed system prompt of `src/services/generation.py`. -/
def SYSTEM_PROMPT : Str :=
  ("You are an AI teaching assistant for the \"Physical AI & Humanoid Robotics\" textbook. Your role is to help students understand the textbook content.\n\nCRITICAL RULES:\n1. ONLY answer questions using the provided textbook context. Do not use any external knowledge.\n2. If the context does not contain enough information to answer the question, say \"This topic may not be covered in this textbook\" or \"I don't have enough information from the textbook to answer this.\"\n3. Always cite the specific chapter when providing information.\n4. Keep answers clear, concise, and educational.\n5. If asked about topics outside the textbook scope, politely redirect to the textbook content.\n\nThe textbook covers:\n- Chapter 1: Introduction to Physical AI\n- Chapter 2: Basics of Humanoid Robotics\n- Chapter 3: ROS 2 Fundamentals\n- Chapter 4: Digital Twin Simulation (Gazebo + Isaac Sim)\n- Chapter 5: Vision-Language-Action Systems\n- Chapter 6: Capstone Project").toList

/-- The external Groq chat-completion call, abstracted as a function from
(system prompt, user message) to the completion text.  The fixed model
name, temperature and token cap are attributes of this collaborator and
carry no information for the properties below. -/
abbrev LLM := Str → Str → Str

/-- Python `"\n\n".join(parts)`. -/
def joinTwoNl : List Str → Str
  | [] => []
  | [p] => p
  | p :: ps => p ++ '\n' :: '\n' :: joinTwoNl ps

/-- Python `str(i)` for the 1-based source counter. -/
def natToStr (n : Nat) : Str := (toString n).toList

/-- The per-result labelled excerpts built by `format_context`
(`[Source i: <chapter name>]\n<chunk_text>`, `i` starting at 1). -/
def contextParts : Nat → List RetrievalResult → List Str
  | _, [] => []
  | i, r :: rs =>
    ("[Source ".toList ++ natToStr i ++ ": ".toList ++
      pyTitle (replaceDashSpace r.chapter_slug) ++ "]\n".toList ++ r.chunk_text) ::
      contextParts (i + 1) rs

/-- `format_context` from `src/services/generation.py`. -/
def format_context (results : List RetrievalResult) : Str :=
  if results.isEmpty then "No relevant content found in the textbook.".toList
  else joinTwoNl (contextParts 1 results)

/-- The user message built inside `generate_response` (the two f-string
branches, with and without `selected_text`). -/
def userMessage (query : Str) (results : List RetrievalResult)
    (selected_text : Option Str) : Str :=
  match selected_text with
  | some sel =>
    "The student has selected the following text from the textbook:\n\n\"".toList ++
      sel ++ "\"\n\nThey are asking: ".toList ++ query ++
      "\n\nRelevant textbook context:\n".toList ++ format_context results ++
      "\n\nPlease help the student understand the selected text and answer their question based on the textbook content.".toList
  | none =>
    "Student question: ".toList ++ query ++
      "\n\nRelevant textbook context:\n".toList ++ format_context results ++
      "\n\nPlease answer the student's question based on the textbook content provided.".toList

/-- `generate_response` from `src/services/generation.py`: build the
context block and user message, then delegate to the external LLM. -/
def generate_response (llm : LLM) (query : Str)
    (context_results : List RetrievalResult) (selected_text : Option Str) : Str :=
  llm SYSTEM_PROMPT (userMessage query context_results selected_text)

/-- `generate_low_confidence_response` from `src/services/generation.py`:
returns a fixed string and never touches the LLM client. -/
def generate_low_confidence_response (_query : Str) : Str :=
  ("I couldn't find enough relevant information in the textbook to answer your question about this topic. This may be because:\n\n1. The topic isn't covered in this textbook\n2. The question is phrased differently than the textbook content\n3. This is an advanced topic beyond the scope of this course\n\nTry rephrasing your question, or ask about specific topics from the table of contents: Introduction to Physical AI, Humanoid Robotics, ROS 2, Digital Twins, or VLA Systems.").toList

/-! ### Chat API (`src/api/chat.py`) -/

/-- `Source` from `src/models/schemas.py` (the citation object). -/
structure Source where
  chapter_slug : Str
  chapter_title : Str
  section_id : Option Str
  section_title : Option Str
  excerpt : Str
  score : ℚ

/-- Python `s.split("#")`: split on every `#`, keeping empty pieces. -/
def splitHash : Str → List Str
  | [] => [[]]
  | c :: cs =>
    if c = '#' then [] :: splitHash cs
    else match splitHash cs with
      | [] => [[c]]
      | p :: ps => (c :: p) :: ps

/-- Python `round(x, 3)` modelled on rationals (round half up; the
banker's rounding of binary floats is not representable exactly and no
claim depends on ties). -/
def round3 (q : ℚ) : ℚ := (⌊q * 1000 + 1/2⌋ : ℚ) / 1000

/-- The body of the `for` loop in `build_sources` (`src/api/chat.py`),
mapping one retrieval result to a `Source`. -/
def build_source (result : RetrievalResult) : Source :=
  let section_title : Option Str :=
    match result.section_id with
    | some sid =>
      if '#' ∈ sid then some (pyTitle (replaceDashSpace ((splitHash sid).getD 1 [])))
      else none
    | none => none
  { chapter_slug := result.chapter_slug
    chapter_title := get_chapter_title result.chapter_slug
    section_id := result.section_id
    section_title := section_title
    excerpt :=
      if result.chunk_text.length > 200 then result.chunk_text.take 200
      else result.chunk_text
    score := round3 result.score }

/-- `build_sources` from `src/api/chat.py`. -/
def build_sources (retrieval_results : List RetrievalResult) : List Source :=
  retrieval_results.map build_source

/-- The deterministic core of `ChatResponse` (`src/models/schemas.py`):
`message_id`/`session_id` are fresh UUIDs (or the echoed session id) and
carry no information about the pipeline, so they are omitted. -/
structure ChatResponseCore where
  answer : Str
  confidence : Confidence
  sources : List Source
  disclaimer : Option Str

/-- `results[0].score if results else 0` from `src/api/chat.py`. -/
def top_score_of : List RetrievalResult → ℚ
  | [] => 0
  | r :: _ => r.score

/-- `send_chat_message` from `src/api/chat.py`, after the external
retrieval call: the results list is an input, the LLM an abstract
function. -/
def send_chat_message (st : SettingsC) (llm : LLM) (message : Str)
    (results : List RetrievalResult) : ChatResponseCore :=
  let top_score := top_score_of results
  let confidence := get_confidence_level st top_score
  if confidence = .low then
    { answer := generate_low_confidence_response message
      confidence := confidence
      sources := []
      disclaimer := some "This topic may not be covered in the textbook.".toList }
  else
    { answer := generate_response llm message results none
      confidence := confidence
      sources := build_sources results
      disclaimer :=
        if confidence = .medium then
          some "Based on limited context from the textbook. The answer may be incomplete.".toList
        else none }

/-- `send_contextual_message` from `src/api/chat.py`, after the external
retrieval call (the optional chapter filter only shapes that call). -/
def send_contextual_message (st : SettingsC) (llm : LLM) (message : Str)
    (selected_text : Str) (results : List RetrievalResult) : ChatResponseCore :=
  let top_score := top_score_of results
  let confidence := get_confidence_level st top_score
  if confidence = .low then
    { answer := generate_response llm message results (some selected_text)
      confidence := .medium
      sources := if results.isEmpty then [] else build_sources results
      disclaimer := some "Response based primarily on the selected text.".toList }
  else
    { answer := generate_response llm message results (some selected_text)
      confidence := confidence
      sources := build_sources results
      disclaimer :=
        if confidence = .medium then
          some "Based on the selected text and limited textbook context.".toList
        else none }

/-! ### Basic lemmas about the embedded string primitives -/

/-- Every word produced by the `pySplit` worker is nonempty. -/
theorem pySplitAux_mem_ne_nil (s : Str) : ∀ (acc : Str), ∀ w ∈ pySplitAux acc s, w ≠ [] := by
  induction s with
  | nil =>
    intro acc w hw
    simp only [pySplitAux] at hw
    split at hw
    · simp at hw
    · rename_i h
      simp only [List.mem_singleton] at hw
      subst hw
      simpa using h
  | cons c cs ih =>
    intro acc w hw
    simp only [pySplitAux] at hw
    split at hw
    · split at hw
      · exact ih [] w hw
      · rename_i h
        rcases List.mem_cons.mp hw with h1 | h1
        · subst h1; simpa using h
        · exact ih [] w h1
    · exact ih (c :: acc) w hw

/-- Every word of `pySplit s` is nonempty. -/
theorem pySplit_mem_ne_nil (s : Str) : ∀ w ∈ pySplit s, w ≠ [] :=
  pySplitAux_mem_ne_nil s []

/-- `joinSpace` of a cons starts with its head word. -/
theorem joinSpace_cons (w : Str) (ws : List Str) :
    ∃ t, joinSpace (w :: ws) = w ++ t := by
  cases ws with
  | nil => exact ⟨[], by simp [joinSpace]⟩
  | cons x xs => exact ⟨' ' :: joinSpace (x :: xs), rfl⟩

/-- The join of a nonempty word list is at least as long as its head. -/
theorem length_joinSpace_cons (w : Str) (ws : List Str) :
    w.length ≤ (joinSpace (w :: ws)).length := by
  obtain ⟨t, ht⟩ := joinSpace_cons w ws
  simp [ht]

/-- A successful `findFromAux` search returns a position at or after the
start position. -/
theorem findFromAux_ge (s sub : Str) :
    ∀ (n i j : Nat), findFromAux s sub i n = some j → i ≤ j := by
  intro n
  induction n with
  | zero => intro i j h; simp [findFromAux] at h
  | succ n ih =>
    intro i j h
    simp only [findFromAux] at h
    split at h
    · exact le_of_eq (Option.some.inj h)
    · exact le_trans (Nat.le_succ i) (ih (i + 1) j h)

/-- With a nonnegative start position, `pyFind` either fails (`-1`) or
returns a position at or after the start. -/
theorem pyFind_ge (s sub : Str) (start : Int) (h0 : 0 ≤ start) :
    pyFind s sub start = -1 ∨ start ≤ pyFind s sub start := by
  simp only [pyFind, if_neg (not_lt.mpr h0)]
  rcases hfind : findFromAux s sub start.toNat (s.length + 1 - start.toNat) with _ | i
  · exact Or.inl rfl
  · right
    have hge := findFromAux_ge s sub _ _ _ hfind
    show start ≤ (i : Int)
    omega

/-- A list `isPrefixOf` anything it is appended in front of. -/
theorem isPrefixOf_append (l t : Str) : l.isPrefixOf (l ++ t) = true := by
  induction l with
  | nil => simp [List.isPrefixOf]
  | cons c cs ih => simp [List.isPrefixOf, ih]

/-- Searching from position `0` for a prefix of `s` finds it at `0`. -/
theorem pyFind_prefix_zero (s sub : Str) (h : sub.isPrefixOf s = true) :
    pyFind s sub 0 = 0 := by
  have h1 : findFromAux s sub 0 (s.length + 1) = some 0 := by
    simp [findFromAux, h]
  simp [pyFind, h1]

/-! ### Structure of the `chunk_text` loop -/

/-- The chunk built by one iteration of the `chunk_text` loop at window
start `s` with search position `cp` (proof abbreviation for the loop
body). -/
def chunkAt (text : Str) (words : List Str) (maxT : Nat) (s : Nat) (cp : Int) : Chunk :=
  let end_idx := min (s + maxT) words.length
  let chunk_words := (words.drop s).take (end_idx - s)
  let ctext := joinSpace chunk_words
  let start_char : Int :=
    match chunk_words with
    | [] => cp
    | w :: _ => pyFind text w cp
  ⟨ctext, start_char, start_char + (ctext.length : Int)⟩

/-- Once the window start passes the word count, the loop is over. -/
theorem chunkLoop_stop (text : Str) (words : List Str) (maxT ov : Nat)
    (fuel s : Nat) (cp : Int) (hs : ¬ s < words.length) :
    chunkLoop text words maxT ov fuel s cp = [] := by
  cases fuel with
  | zero => rfl
  | succ fuel => simp [chunkLoop, hs]

/-- One unfolding of the loop when the window start is in range. -/
theorem chunkLoop_succ (text : Str) (words : List Str) (maxT ov : Nat)
    (fuel s : Nat) (cp : Int) (hs : s < words.length) :
    chunkLoop text words maxT ov (fuel + 1) s cp =
      if words.length ≤ min (s + maxT) words.length then [chunkAt text words maxT s cp]
      else chunkAt text words maxT s cp ::
        chunkLoop text words maxT ov fuel (min (s + maxT) words.length - ov)
          (chunkAt text words maxT s cp).end_char := by
  simp only [chunkLoop, chunkAt, if_pos hs]

/-- `end_char = start_char + len(text)` holds for the loop-body chunk by
construction. -/
theorem chunkAt_end (text : Str) (words : List Str) (maxT : Nat) (s : Nat) (cp : Int) :
    (chunkAt text words maxT s cp).end_char =
      (chunkAt text words maxT s cp).start_char +
        ((chunkAt text words maxT s cp).text.length : Int) := rfl

/-- The loop-body chunk's text is a window of the word list joined by
single spaces. -/
theorem chunkAt_text (text : Str) (words : List Str) (maxT : Nat) (s : Nat) (cp : Int) :
    (chunkAt text words maxT s cp).text =
      joinSpace ((words.drop s).take (min (s + maxT) words.length - s)) := rfl

/-- With nonempty words and a positive window size, the loop-body chunk
has nonempty text. -/
theorem chunkAt_text_len (text : Str) (words : List Str) (maxT : Nat) (s : Nat) (cp : Int)
    (hw : ∀ w ∈ words, w ≠ []) (hmax : 1 ≤ maxT) (hs : s < words.length) :
    1 ≤ (chunkAt text words maxT s cp).text.length := by
  obtain ⟨m, hm⟩ : ∃ m, min (s + maxT) words.length - s = m + 1 :=
    ⟨min (s + maxT) words.length - s - 1, by omega⟩
  rw [chunkAt_text, List.drop_eq_getElem_cons hs, hm, List.take_succ_cons]
  have hw' : 1 ≤ (words[s]).length :=
    List.length_pos.mpr (hw _ (List.getElem_mem hs))
  exact le_trans hw' (length_joinSpace_cons _ _)

/-- If the loop-body chunk's `start_char` is nonnegative (its substring
search did not fail) and the search began at a nonnegative position, the
chunk starts at or after the search position. -/
theorem chunkAt_start_ge (text : Str) (words : List Str) (maxT : Nat) (s : Nat) (cp : Int)
    (h0 : 0 ≤ cp) (hpos : 0 ≤ (chunkAt text words maxT s cp).start_char) :
    cp ≤ (chunkAt text words maxT s cp).start_char := by
  show cp ≤ (match (words.drop s).take (min (s + maxT) words.length - s) with
    | [] => cp
    | w :: _ => pyFind text w cp)
  have hpos' : (0 : Int) ≤ (match (words.drop s).take (min (s + maxT) words.length - s) with
    | [] => cp
    | w :: _ => pyFind text w cp) := hpos
  rcases hcw : (words.drop s).take (min (s + maxT) words.length - s) with _ | ⟨w, rest⟩
  · simp
  · rw [hcw] at hpos'
    simp only at hpos' ⊢
    rcases pyFind_ge text w cp h0 with h | h
    · omega
    · exact h

/-- Every chunk produced by the loop satisfies
`end_char = start_char + len(text)` and carries a window of the word
list joined by single spaces. -/
theorem chunkLoop_mem (text : Str) (words : List Str) (maxT ov : Nat) :
    ∀ (fuel s : Nat) (cp : Int), ∀ c ∈ chunkLoop text words maxT ov fuel s cp,
      c.end_char = c.start_char + (c.text.length : Int) ∧
      ∃ i k, c.text = joinSpace ((words.drop i).take k) := by
  intro fuel
  induction fuel with
  | zero => intro s cp c hc; simp [chunkLoop] at hc
  | succ fuel ih =>
    intro s cp c hc
    by_cases hs : s < words.length
    · rw [chunkLoop_succ text words maxT ov fuel s cp hs] at hc
      have hbody : c = chunkAt text words maxT s cp →
          c.end_char = c.start_char + (c.text.length : Int) ∧
          ∃ i k, c.text = joinSpace ((words.drop i).take k) := by
        intro h
        subst h
        exact ⟨chunkAt_end text words maxT s cp,
          ⟨s, min (s + maxT) words.length - s, chunkAt_text text words maxT s cp⟩⟩
      split at hc
      · exact hbody (List.mem_singleton.mp hc)
      · rcases List.mem_cons.mp hc with h1 | h1
        · exact hbody h1
        · exact ih _ _ c h1
    · rw [chunkLoop_stop text words maxT ov _ s cp hs] at hc
      simp at hc

/-- With nonempty words and a positive window, every produced chunk has
nonempty text. -/
theorem chunkLoop_text_len (text : Str) (words : List Str) (maxT ov : Nat)
    (hw : ∀ w ∈ words, w ≠ []) (hmax : 1 ≤ maxT) :
    ∀ (fuel s : Nat) (cp : Int), ∀ c ∈ chunkLoop text words maxT ov fuel s cp,
      1 ≤ c.text.length := by
  intro fuel
  induction fuel with
  | zero => intro s cp c hc; simp [chunkLoop] at hc
  | succ fuel ih =>
    intro s cp c hc
    by_cases hs : s < words.length
    · rw [chunkLoop_succ text words maxT ov fuel s cp hs] at hc
      split at hc
      · rw [List.mem_singleton.mp hc]
        exact chunkAt_text_len text words maxT s cp hw hmax hs
      · rcases List.mem_cons.mp hc with h1 | h1
        · rw [h1]; exact chunkAt_text_len text words maxT s cp hw hmax hs
        · exact ih _ _ c h1
    · rw [chunkLoop_stop text words maxT ov _ s cp hs] at hc
      simp at hc

/-- If every produced chunk's substring search succeeded (nonnegative
`start_char`), the chunks' start offsets strictly dominate the running
search position and form a non-decreasing sequence. -/
theorem chunkLoop_starts_mono (text : Str) (words : List Str) (maxT ov : Nat)
    (hw : ∀ w ∈ words, w ≠ []) (hmax : 1 ≤ maxT) :
    ∀ (fuel s : Nat) (cp : Int), 0 ≤ cp →
      (∀ c ∈ chunkLoop text words maxT ov fuel s cp, 0 ≤ c.start_char) →
      List.Chain' (· ≤ ·) ((chunkLoop text words maxT ov fuel s cp).map Chunk.start_char) ∧
      ∀ c ∈ chunkLoop text words maxT ov fuel s cp, cp ≤ c.start_char := by
  intro fuel
  induction fuel with
  | zero => intro s cp h0 hnn; simp [chunkLoop]
  | succ fuel ih =>
    intro s cp h0 hnn
    by_cases hs : s < words.length
    · rw [chunkLoop_succ text words maxT ov fuel s cp hs] at hnn ⊢
      have hlen : 1 ≤ (chunkAt text words maxT s cp).text.length :=
        chunkAt_text_len text words maxT s cp hw hmax hs
      by_cases hend : words.length ≤ min (s + maxT) words.length
      · rw [if_pos hend] at hnn ⊢
        have hge := chunkAt_start_ge text words maxT s cp h0
          (hnn _ (List.mem_singleton.mpr rfl))
        refine ⟨by simp, ?_⟩
        intro c hc
        rw [List.mem_singleton.mp hc]
        exact hge
      · rw [if_neg hend] at hnn ⊢
        have h00 : 0 ≤ (chunkAt text words maxT s cp).start_char :=
          hnn _ (List.mem_cons_self _ _)
        have hge := chunkAt_start_ge text words maxT s cp h0 h00
        have hcp' : 0 ≤ (chunkAt text words maxT s cp).end_char := by
          rw [chunkAt_end]; omega
        have hrec := ih (min (s + maxT) words.length - ov)
          (chunkAt text words maxT s cp).end_char hcp'
          (fun c hc => hnn c (List.mem_cons_of_mem _ hc))
        have hendlt : (chunkAt text words maxT s cp).start_char <
            (chunkAt text words maxT s cp).end_char := by
          rw [chunkAt_end]; omega
        constructor
        · rw [List.map_cons]
          refine List.chain'_cons'.mpr ⟨?_, hrec.1⟩
          intro b hb
          rcases htail : chunkLoop text words maxT ov fuel
              (min (s + maxT) words.length - ov)
              (chunkAt text words maxT s cp).end_char with _ | ⟨r, rs⟩
          · rw [htail] at hb; simp at hb
          · rw [htail] at hb
            simp only [List.map_cons, List.head?_cons, Option.mem_def,
              Option.some.injEq] at hb
            subst hb
            have := hrec.2 r (by rw [htail]; exact List.mem_cons_self _ _)
            omega
        · intro c hc
          rcases List.mem_cons.mp hc with h1 | h1
          · rw [h1]; exact hge
          · have := hrec.2 c h1
            omega
    · rw [chunkLoop_stop text words maxT ov _ s cp hs] at hnn ⊢
      simp

/-- With `ov < maxT`, any fuel at least `words.length - s` computes the
same chunk list: the loop terminates within that many iterations. -/
theorem chunkLoop_fuel_mono (text : Str) (words : List Str) (maxT ov : Nat)
    (hov : ov < maxT) :
    ∀ (fuel fuel' s : Nat) (cp : Int), words.length - s ≤ fuel → fuel ≤ fuel' →
      chunkLoop text words maxT ov fuel' s cp = chunkLoop text words maxT ov fuel s cp := by
  intro fuel
  induction fuel with
  | zero =>
    intro fuel' s cp hle _
    have hs : ¬ s < words.length := by omega
    rw [chunkLoop_stop text words maxT ov _ s cp hs,
      chunkLoop_stop text words maxT ov _ s cp hs]
  | succ fuel ih =>
    intro fuel' s cp hle hff
    by_cases hs : s < words.length
    · obtain ⟨f', rfl⟩ : ∃ f', fuel' = f' + 1 := ⟨fuel' - 1, by omega⟩
      rw [chunkLoop_succ text words maxT ov fuel s cp hs,
        chunkLoop_succ text words maxT ov f' s cp hs]
      by_cases hend : words.length ≤ min (s + maxT) words.length
      · rw [if_pos hend, if_pos hend]
      · rw [if_neg hend, if_neg hend]
        have hmin : min (s + maxT) words.length = s + maxT := by omega
        have : words.length - (min (s + maxT) words.length - ov) ≤ fuel := by omega
        rw [ih f' (min (s + maxT) words.length - ov)
          (chunkAt text words maxT s cp).end_char this (by omega)]
    · rw [chunkLoop_stop text words maxT ov _ s cp hs,
        chunkLoop_stop text words maxT ov _ s cp hs]

/-! ### Claims about confidence classification and the chat handlers -/

/-- Rank of a confidence level, for monotonicity statements
(LOW < MEDIUM < HIGH). -/
def confidenceRank : Confidence → Nat
  | .low => 0
  | .medium => 1
  | .high => 2

/-- Claim C1: confidence classification is a total function of the top
retrieval score: with `high_threshold > low_threshold` the result is
HIGH iff `s ≥ high`, MEDIUM iff `low ≤ s < high`, LOW iff `s < low`; it
is monotonically non-decreasing in the score; and with the default pair
`(low=0.4, high=0.7)` it maps 0.9 and 0.7 to HIGH, 0.69 and 0.4 to
MEDIUM, and 0.39 to LOW. -/
theorem C1_confidence_classification (st : SettingsC) (s t : ℚ)
    (hst : st.confidence_low_threshold < st.confidence_high_threshold) :
    (get_confidence_level st s = .high ↔ st.confidence_high_threshold ≤ s) ∧
    (get_confidence_level st s = .medium ↔
      st.confidence_low_threshold ≤ s ∧ s < st.confidence_high_threshold) ∧
    (get_confidence_level st s = .low ↔ s < st.confidence_low_threshold) ∧
    (s ≤ t → confidenceRank (get_confidence_level st s) ≤
      confidenceRank (get_confidence_level st t)) ∧
    get_confidence_level defaultSettings (9/10) = .high ∧
    get_confidence_level defaultSettings (7/10) = .high ∧
    get_confidence_level defaultSettings (69/100) = .medium ∧
    get_confidence_level defaultSettings (2/5) = .medium ∧
    get_confidence_level defaultSettings (39/100) = .low := by
  refine ⟨?_, ?_, ?_, ?_, ?_, ?_, ?_, ?_, ?_⟩
  · unfold get_confidence_level
    split_ifs with h1 h2 <;> simp_all
  · unfold get_confidence_level
    split_ifs with h1 h2 <;> simp_all
  · unfold get_confidence_level
    split_ifs with h1 h2 <;> simp_all
    linarith
  · intro hstle
    unfold get_confidence_level
    split_ifs <;> simp [confidenceRank] <;> linarith
  all_goals norm_num [get_confidence_level, defaultSettings]

/-- Witness for C1 at the default thresholds. -/
theorem C1_confidence_classification_witness :
    (2/5 : ℚ) < 7/10 ∧
    (get_confidence_level defaultSettings (1/2) = .medium ↔
      (2/5 : ℚ) ≤ 1/2 ∧ (1/2 : ℚ) < 7/10) :=
  ⟨by norm_num,
    (C1_confidence_classification defaultSettings (1/2) (3/4)
      (by norm_num [defaultSettings])).2.1⟩

/-- Claim C2: for every non-contextual chat request classified LOW, the
answer equals the fixed low-confidence fallback text (whatever the query),
the sources list is empty, the disclaimer is the fixed "may not be
covered" message, and the response does not depend on the external LLM
(the chat-completion call is never made on this path). -/
theorem C2_low_confidence_plain_chat (st : SettingsC) (llm llm2 : LLM) (message : Str)
    (results : List RetrievalResult)
    (hlow : get_confidence_level st (top_score_of results) = .low) :
    (∀ q, (send_chat_message st llm message results).answer =
      generate_low_confidence_response q) ∧
    (send_chat_message st llm message results).sources = [] ∧
    (send_chat_message st llm message results).disclaimer =
      some "This topic may not be covered in the textbook.".toList ∧
    send_chat_message st llm message results = send_chat_message st llm2 message results := by
  simp only [send_chat_message, hlow]
  exact ⟨fun q => rfl, rfl, rfl, rfl⟩

/-- Witness for C2 with empty retrieval at the default thresholds. -/
theorem C2_low_confidence_plain_chat_witness :
    get_confidence_level defaultSettings (top_score_of []) = .low ∧
    (send_chat_message defaultSettings (fun _ _ => ['x']) "hi".toList []).sources = [] := by
  have h : get_confidence_level defaultSettings (top_score_of []) = .low := by
    norm_num [get_confidence_level, top_score_of, defaultSettings]
  exact ⟨h, (C2_low_confidence_plain_chat defaultSettings (fun _ _ => ['x'])
    (fun _ _ => ['y']) "hi".toList [] h).2.1⟩

/-- Claim C3: for every contextual chat request whose retrieval is
classified LOW (including zero hits), the returned confidence is
upgraded to MEDIUM, the disclaimer is the fixed "based primarily on the
selected text" message, and the answer is produced by the normal LLM
generation path over whatever results exist. -/
theorem C3_contextual_low_upgrade (st : SettingsC) (llm : LLM)
    (message selected_text : Str) (results : List RetrievalResult)
    (hlow : get_confidence_level st (top_score_of results) = .low) :
    (send_contextual_message st llm message selected_text results).confidence = .medium ∧
    (send_contextual_message st llm message selected_text results).disclaimer =
      some "Response based primarily on the selected text.".toList ∧
    (send_contextual_message st llm message selected_text results).answer =
      generate_response llm message results (some selected_text) ∧
    (send_contextual_message st llm message selected_text results).answer =
      llm SYSTEM_PROMPT (userMessage message results (some selected_text)) := by
  simp only [send_contextual_message, hlow]
  exact ⟨rfl, rfl, rfl, rfl⟩

/-- Witness for C3 with zero retrieval hits at the default thresholds. -/
theorem C3_contextual_low_upgrade_witness :
    get_confidence_level defaultSettings (top_score_of []) = .low ∧
    (send_contextual_message defaultSettings (fun _ _ => ['x'])
      "q".toList "sel".toList []).confidence = .medium := by
  have h : get_confidence_level defaultSettings (top_score_of []) = .low := by
    norm_num [get_confidence_level, top_score_of, defaultSettings]
  exact ⟨h, (C3_contextual_low_upgrade defaultSettings (fun _ _ => ['x'])
    "q".toList "sel".toList [] h).1⟩

/-- Counterexample to C6 as stated: with the valid threshold pair
`(low = -1/2, high = 7/10)` (high > low), an empty retrieval list is
classified MEDIUM, not LOW, because the handler substitutes the score
`0` (not `-∞`) for an empty list. -/
theorem C6_counterexample :
    ((-1/2 : ℚ) < 7/10) ∧
    (send_chat_message ⟨7/10, -1/2⟩ (fun _ _ => []) [] []).confidence = .medium := by
  refine ⟨by norm_num, ?_⟩
  have h : get_confidence_level ⟨7/10, -1/2⟩ (top_score_of []) = .medium := by
    norm_num [get_confidence_level, top_score_of]
  simp [send_chat_message, h]

/-- Claim C6 (amended): for every threshold configuration with
`0 < low_threshold < high_threshold`, a chat request whose retrieval
returns an empty result list is classified LOW. -/
theorem C6_empty_results_low (st : SettingsC) (llm : LLM) (message : Str)
    (h0 : 0 < st.confidence_low_threshold)
    (h1 : st.confidence_low_threshold < st.confidence_high_threshold) :
    (send_chat_message st llm message []).confidence = .low := by
  have hlow : get_confidence_level st (top_score_of []) = .low := by
    simp only [top_score_of, get_confidence_level]
    split_ifs with ha hb
    · exfalso; linarith
    · exfalso; linarith
    · rfl
  simp [send_chat_message, hlow]

/-- Witness for the amended C6 at the default thresholds. -/
theorem C6_empty_results_low_witness :
    ((0 : ℚ) < 2/5) ∧ ((2/5 : ℚ) < 7/10) ∧
    (send_chat_message defaultSettings (fun _ _ => []) [] []).confidence = .low :=
  ⟨by norm_num, by norm_num,
    C6_empty_results_low defaultSettings (fun _ _ => []) []
      (by norm_num [defaultSettings]) (by norm_num [defaultSettings])⟩

/-- Claim C8: every retrieval result mapped to a `Source` has its
excerpt equal to the chunk text truncated to at most 200 characters; a
500-character chunk text yields an excerpt of exactly 200 characters and
a 150-character chunk text is passed through unchanged. -/
theorem C8_excerpt_truncation (r : RetrievalResult) :
    (build_source r).excerpt = r.chunk_text.take 200 ∧
    (build_source r).excerpt.length = min 200 r.chunk_text.length ∧
    (r.chunk_text.length = 500 → (build_source r).excerpt.length = 200) ∧
    (r.chunk_text.length = 150 → (build_source r).excerpt = r.chunk_text) ∧
    (build_sources [r]).map Source.excerpt = [r.chunk_text.take 200] := by
  have h1 : (build_source r).excerpt = r.chunk_text.take 200 := by
    simp only [build_source]
    split_ifs with h
    · rfl
    · exact (List.take_of_length_le (by omega)).symm
  refine ⟨h1, ?_, ?_, ?_, ?_⟩
  · rw [h1, List.length_take]
  · intro h500; rw [h1, List.length_take, h500]; omega
  · intro h150; rw [h1]; exact List.take_of_length_le (by omega)
  · simp [build_sources, h1]

/-- Witness for C8 on a 500-character chunk text. -/
theorem C8_excerpt_truncation_witness :
    (List.replicate 500 'x').length = 500 ∧
    (build_source ⟨List.replicate 500 'x', "c".toList, none, 0, 1/2, 0, 0⟩).excerpt.length
      = 200 :=
  ⟨by simp, (C8_excerpt_truncation ⟨List.replicate 500 'x', "c".toList, none, 0, 1/2, 0, 0⟩).2.2.1
    (by simp)⟩

/-- Claim C10: the low-confidence fallback generator ignores its query
argument entirely; it is a constant function. -/
theorem C10_fallback_ignores_query (q1 q2 : Str) :
    generate_low_confidence_response q1 = generate_low_confidence_response q2 := rfl

/-! ### Claims about the chunker -/

/-- Counterexample to C4 as stated: for the non-empty text `"a  b"`
(double space) and the default parameters, the last chunk's `end_char`
is 3 while `len(T)` is 4, because the chunk text re-joins the words with
single spaces. -/
theorem C4_counterexample :
    (50 < 512) ∧
    (chunk_text "a  b".toList 512 50).map Chunk.end_char = [(3 : Int)] ∧
    ((("a  b".toList).length : Int) = 4) ∧ ((3 : Int) ≠ 4) := by
  refine ⟨by norm_num, by decide, by decide, by decide⟩

/-- Claim C4 (amended): for every non-empty text that equals its words
joined by single spaces and whose word count is at most `max_tokens`
(with `overlap_tokens < max_tokens`), chunking produces a single chunk
covering the whole text, so the last chunk's `end_char` equals `len(T)`. -/
theorem C4_last_chunk_end (text : Str) (maxT ov : Nat)
    (_hov : ov < maxT) (hne : text ≠ [])
    (hnorm : joinSpace (pySplit text) = text)
    (hfit : (pySplit text).length ≤ maxT) :
    chunk_text text maxT ov = [⟨text, 0, (text.length : Int)⟩] := by
  obtain ⟨w, ws, hwords⟩ : ∃ w ws, pySplit text = w :: ws := by
    cases hP : pySplit text with
    | nil =>
      rw [hP] at hnorm
      exact absurd hnorm.symm hne
    | cons w ws => exact ⟨w, ws, rfl⟩
  rw [hwords] at hnorm hfit
  unfold chunk_text
  rw [hwords]
  have hs : 0 < (w :: ws).length := Nat.succ_pos _
  rw [show (w :: ws).length = ws.length + 1 from rfl,
    chunkLoop_succ text (w :: ws) maxT ov ws.length 0 0 hs]
  rw [if_pos (by simp only [List.length_cons] at hfit ⊢; omega)]
  have hcw : ((w :: ws).drop 0).take (min (0 + maxT) (w :: ws).length - 0) = w :: ws := by
    rw [List.drop_zero]
    have hmin : min (0 + maxT) (w :: ws).length = (w :: ws).length := by
      simp only [List.length_cons] at hfit ⊢; omega
    rw [hmin, Nat.sub_zero, List.take_length]
  have hpre : text = w ++ (joinSpace (w :: ws)).drop w.length := by
    obtain ⟨t, ht⟩ := joinSpace_cons w ws
    rw [← hnorm, ht]
    simp
  have hsc : pyFind text w 0 = 0 := by
    refine pyFind_prefix_zero text w ?_
    rw [hpre]
    exact isPrefixOf_append _ _
  simp only [chunkAt]
  rw [hcw]
  simp [hnorm, hsc]

/-- Witness for the amended C4 on a two-word text. -/
theorem C4_last_chunk_end_witness :
    (50 < 512) ∧
    chunk_text "hello world".toList 512 50 = [⟨"hello world".toList, 0, 11⟩] := by
  refine ⟨by norm_num, ?_⟩
  have h := C4_last_chunk_end "hello world".toList 512 50 (by norm_num)
    (by decide) (by decide) (by decide)
  rw [h]
  decide

/-- Counterexample to C5 as stated: for text `"a b a"` with the valid
parameters `max_tokens = 2`, `overlap_tokens = 1`, the produced start
offsets are `[0, -1]` (the second chunk's substring search fails), which
is not non-decreasing. -/
theorem C5_counterexample :
    (1 < 2) ∧
    (chunk_text "a b a".toList 2 1).map Chunk.start_char = [0, -1] ∧
    ¬ List.Chain' (· ≤ ·) ((chunk_text "a b a".toList 2 1).map Chunk.start_char) := by
  have hmap : (chunk_text "a b a".toList 2 1).map Chunk.start_char = [0, -1] := by decide
  refine ⟨by norm_num, hmap, ?_⟩
  rw [hmap]
  simp [List.chain'_cons]

/-- Claim C5 (amended): for every text and valid parameters
(`overlap_tokens < max_tokens`), every produced chunk satisfies
`start_char < end_char`; and whenever every chunk's substring search
succeeded (all `start_char` nonnegative), the start offsets are
non-decreasing in production order. -/
theorem C5_chunk_invariants (text : Str) (maxT ov : Nat) (hov : ov < maxT) :
    (∀ c ∈ chunk_text text maxT ov, c.start_char < c.end_char) ∧
    ((∀ c ∈ chunk_text text maxT ov, 0 ≤ c.start_char) →
      List.Chain' (· ≤ ·) ((chunk_text text maxT ov).map Chunk.start_char)) := by
  have hw := pySplit_mem_ne_nil text
  have hmax : 1 ≤ maxT := by omega
  constructor
  · intro c hc
    simp only [chunk_text] at hc
    have h1 := (chunkLoop_mem text (pySplit text) maxT ov _ _ _ c hc).1
    have h2 := chunkLoop_text_len text (pySplit text) maxT ov hw hmax _ _ _ c hc
    omega
  · intro hnn
    simp only [chunk_text] at hnn ⊢
    exact (chunkLoop_starts_mono text (pySplit text) maxT ov hw hmax _ _ _ le_rfl hnn).1

/-- Witness for the amended C5 on a two-word text. -/
theorem C5_chunk_invariants_witness :
    (50 < 512) ∧
    List.Chain' (· ≤ ·) ((chunk_text "hello world".toList 512 50).map Chunk.start_char) :=
  ⟨by norm_num,
    (C5_chunk_invariants "hello world".toList 512 50 (by norm_num)).2 (by decide)⟩

/-- Claim C7: for `overlap_tokens < max_tokens` the chunking loop
terminates within `len(words)` iterations — any fuel at least the word
count computes the same chunk list — and empty text yields an empty
chunk sequence. -/
theorem C7_chunking_terminates (text : Str) (maxT ov : Nat) (hov : ov < maxT) :
    (∀ fuel, (pySplit text).length ≤ fuel →
      chunkLoop text (pySplit text) maxT ov fuel 0 0 = chunk_text text maxT ov) ∧
    chunk_text [] maxT ov = [] := by
  constructor
  · intro fuel hf
    unfold chunk_text
    exact chunkLoop_fuel_mono text (pySplit text) maxT ov hov
      (pySplit text).length fuel 0 0 (by omega) hf
  · rfl

/-- Witness for C7: extra fuel does not change the chunking of a
three-word text. -/
theorem C7_chunking_terminates_witness :
    (1 < 2) ∧
    chunkLoop "a b a".toList (pySplit "a b a".toList) 2 1 7 0 0 =
      chunk_text "a b a".toList 2 1 :=
  ⟨by norm_num, (C7_chunking_terminates "a b a".toList 2 1 (by norm_num)).1 7 (by decide)⟩

/-- Claim C9 (implicit): every chunk's `end_char` is its `start_char`
plus the length of its normalized (space-joined) text, every chunk's
text is a window of the split word list joined by single spaces, and a
chunk's text is in general not a verbatim substring of the original
document (witnessed by `"a  b"`, whose only chunk text `"a b"` does not
occur in it — its `pyFind` is `-1`). -/
theorem C9_chunk_text_normalized :
    (∀ (text : Str) (maxT ov : Nat), ∀ c ∈ chunk_text text maxT ov,
      c.end_char = c.start_char + (c.text.length : Int) ∧
      ∃ i k, c.text = joinSpace (((pySplit text).drop i).take k)) ∧
    (chunk_text "a  b".toList 512 50).map Chunk.text = ["a b".toList] ∧
    pyFind "a  b".toList "a b".toList 0 = -1 := by
  refine ⟨?_, by decide, by decide⟩
  intro text maxT ov c hc
  simp only [chunk_text] at hc
  exact chunkLoop_mem text (pySplit text) maxT ov _ _ _ c hc

/-- Witness for C9 on the chunk produced from `"a  b"`. -/
theorem C9_chunk_text_normalized_witness :
    (⟨"a b".toList, 0, 3⟩ : Chunk) ∈ chunk_text "a  b".toList 512 50 ∧
    (3 : Int) = 0 + (("a b".toList).length : Int) := by
  refine ⟨by decide, ?_⟩
  exact (C9_chunk_text_normalized.1 "a  b".toList 512 50 ⟨"a b".toList, 0, 3⟩ (by decide)).1

end AIBook
